import Mathlib

/-!
# Verification of the Flower federated-learning tutorial orchestration layer

Shallow embedding of the tutorial notebook
`doc/source/tutorial/Flower-1-Intro-to-FL-PyTorch.ipynb` together with the
orchestration/aggregation engine it exercises.  Numeric values (Python floats)
are modelled as exact rationals `ℚ`; Python ints as `ℤ`/`ℕ`.

Functions defined directly in the notebook (`weighted_average`,
`get_parameters`/`set_parameters`, `FlowerClient.fit`/`FlowerClient.evaluate`,
the dataset partition sizes) are embedded from that source.  The framework
core (`FedAvg` selection and aggregation, the round orchestrator) is not part
of the source tree; those definitions are modelled from the specification and
say so in their doc comments.
-/

namespace Flower

/-- Run-level errors of the orchestration layer (spec §7 taxonomy). -/
inductive FLError where
  | InsufficientParticipants
  | AggregationEmpty
  | ShapeMismatch
  deriving DecidableEq, Repr

/-- Python runtime errors raised by the notebook's own helper code. -/
inductive PyError where
  | ZeroDivisionError
  | KeyError
  deriving DecidableEq, Repr

/-- View of an `Except` value as a sum, to decide equality of results. -/
def exceptToSum {ε α : Type} : Except ε α → ε ⊕ α
  | .error e => .inl e
  | .ok a => .inr a

instance {ε α : Type} [DecidableEq ε] [DecidableEq α] :
    DecidableEq (Except ε α) := fun a b =>
  decidable_of_iff (exceptToSum a = exceptToSum b)
    (by cases a <;> cases b <;> simp [exceptToSum])

/-- A ParameterSet: ordered sequence of numeric tensor entries, flattened to
their positions; each position holds one exact numeric value. -/
abbrev ParameterSet := List ℚ

/-- A metrics mapping: ordered association list from metric name to value. -/
abbrev Metrics := List (String × ℚ)

/-- Sample-count-weighted mean of a list of `(value, sample_count)` pairs:
`sum(count_r * value_r) / sum(count_r)`. -/
def weightedMean (results : List (ℚ × ℕ)) : ℚ :=
  (results.map (fun r => (r.2 : ℚ) * r.1)).sum /
    (results.map (fun r => ((r.2 : ℕ) : ℚ))).sum

/-- Modelled from the spec: the framework's `aggregate_fit` tensor combination
(§4.3) is not under `src/`; per the spec, the aggregated value at tensor
position `i` is the sample-count-weighted average across results. -/
def aggregateAt (results : List (ParameterSet × ℕ)) (i : ℕ) : ℚ :=
  weightedMean (results.map (fun r => (r.1.getD i 0, r.2)))

/-- Modelled from the spec: `aggregate_fit` (§4.3).  Missing from `src/`
(only the tutorial caller is present).  Requires at least one successful
result, else `AggregationEmpty`; combines parameters position-wise by the
sample-count-weighted average; delegates metric aggregation to an optional
caller-supplied combining function and drops metrics (empty mapping) when
none is supplied. -/
def aggregate_fit (fitCombiner : Option (List (ℕ × Metrics) → Metrics))
    (results : List (ParameterSet × ℕ × Metrics)) :
    Except FLError (ParameterSet × Metrics) :=
  match results with
  | [] => .error .AggregationEmpty
  | r :: rs =>
    let prs := (r :: rs).map (fun t => (t.1, t.2.1))
    let params := (List.range r.1.length).map (aggregateAt prs)
    let ms := match fitCombiner with
      | none => []
      | some f => f ((r :: rs).map (fun t => (t.2.1, t.2.2)))
    .ok (params, ms)

/-- Modelled from the spec: `aggregate_evaluate` (§4.4).  Missing from
`src/`.  The loss is the sample-count-weighted average of per-participant
losses; metrics are delegated to an optional combiner and dropped when none
is supplied.  With zero results there is nothing to report (`none`), which
the orchestrator records as an absent evaluation, not an error (§4.5). -/
def aggregate_evaluate (evalCombiner : Option (List (ℕ × Metrics) → Metrics))
    (results : List (ℚ × ℕ × Metrics)) : Option (ℚ × Metrics) :=
  match results with
  | [] => none
  | r :: rs =>
    let loss := weightedMean ((r :: rs).map (fun t => (t.1, t.2.1)))
    let ms := match evalCombiner with
      | none => []
      | some f => f ((r :: rs).map (fun t => (t.2.1, t.2.2)))
    some (loss, ms)

/-- Round-half-up of a rational, the tie-break rounding rule of §4.1. -/
def roundHalfUp (q : ℚ) : ℤ := ⌊q + 1 / 2⌋

/-- Modelled from the spec: SelectionPolicy target count (§4.1), missing from
`src/`: `max(round(fraction * |registry|), min_required)`, clamped to
`|registry|`, with round-half-up rounding. -/
def selectCount (registrySize : ℕ) (fraction : ℚ) (minRequired : ℕ) : ℕ :=
  min (max (roundHalfUp (fraction * registrySize)).toNat minRequired) registrySize

/-- Modelled from the spec: `select_for_fit` (§4.1), missing from `src/`.
Fails with `InsufficientParticipants` when the registry is smaller than
`min_available`, before any dispatch; otherwise returns the number of
participants selected (selection among eligible participants is a uniform
random draw of exactly that many ids, so the set's size is the observable
modelled here). -/
def select_for_fit (registrySize : ℕ) (fraction_fit : ℚ)
    (min_fit : ℕ) (min_available : ℕ) : Except FLError ℕ :=
  if registrySize < min_available then .error .InsufficientParticipants
  else .ok (selectCount registrySize fraction_fit min_fit)

/-- Modelled from the spec: `select_for_evaluate` (§4.1), missing from
`src/`; same algorithm as `select_for_fit` with the evaluation parameters. -/
def select_for_evaluate (registrySize : ℕ) (fraction_evaluate : ℚ)
    (min_evaluate : ℕ) (min_available : ℕ) : Except FLError ℕ :=
  if registrySize < min_available then .error .InsufficientParticipants
  else .ok (selectCount registrySize fraction_evaluate min_evaluate)

/-! ## Notebook cell: dataset partition sizes (`load_datasets`) -/

/-- `NUM_CLIENTS = 10` (notebook). -/
def NUM_CLIENTS : ℕ := 10

/-- `BATCH_SIZE = 32` (notebook). -/
def BATCH_SIZE : ℕ := 32

/-- CIFAR-10 training-set size used by `load_datasets`. -/
def cifarTrainSize : ℕ := 50000

/-- `partition_size = len(trainset) // NUM_CLIENTS` (notebook). -/
def partition_size : ℕ := cifarTrainSize / NUM_CLIENTS

/-- `len_val = len(ds) // 10` (notebook, 10 % validation split). -/
def len_val : ℕ := partition_size / 10

/-- `len_train = len(ds) - len_val` (notebook). -/
def len_train : ℕ := partition_size - len_val

/-- `len(dataloader)` for a PyTorch `DataLoader` with `drop_last=False`
(the notebook's default): the number of batches, `ceil(datasetLen / batch)`. -/
def dataLoaderLen (datasetLen batchSize : ℕ) : ℕ :=
  (datasetLen + batchSize - 1) / batchSize

/-- The second tuple element returned by `FlowerClient.fit`:
`len(self.trainloader)`, i.e. the number of training batches. -/
def fit_sample_count : ℕ := dataLoaderLen len_train BATCH_SIZE

/-- The second tuple element returned by `FlowerClient.evaluate`:
`len(self.valloader)`, i.e. the number of validation batches. -/
def evaluate_sample_count : ℕ := dataLoaderLen len_val BATCH_SIZE

/-! ## Notebook cell: `get_parameters` / `set_parameters` -/

/-- A model's `state_dict`: ordered mapping from tensor name to (flattened)
tensor values. -/
abbrev Net := List (String × List ℚ)

/-- `get_parameters(net)`: the `state_dict` values, in order, as arrays. -/
def get_parameters (net : Net) : List (List ℚ) :=
  net.map (fun kv => kv.2)

/-- `set_parameters(net, parameters)`: zips the `state_dict` keys with the
supplied arrays and loads strictly; a tensor shape disagreeing with the
model's raises (modelled as `ShapeMismatch`). -/
def set_parameters (net : Net) (parameters : List (List ℚ)) :
    Except FLError Net :=
  if net.map (fun kv => kv.2.length) = parameters.map (fun p => p.length)
  then .ok ((net.map (fun kv => kv.1)).zip parameters)
  else .error .ShapeMismatch

/-! ## Notebook cell: `weighted_average` metric combiner -/

/-- `weighted_average(metrics)` (notebook): builds
`[num_examples * m["accuracy"] ...]` (a missing key raises `KeyError`), then
returns `{"accuracy": sum(accuracies) / sum(examples)}`; a zero example sum
raises `ZeroDivisionError`. -/
def weighted_average (metrics : List (ℤ × Metrics)) : Except PyError Metrics :=
  match metrics.mapM (fun p =>
      match p.2.lookup "accuracy" with
      | some a => Except.ok ((p.1 : ℚ) * a)
      | none => Except.error PyError.KeyError) with
  | .error e => .error e
  | .ok accuracies =>
    let examples := metrics.map (fun p => p.1)
    if examples.sum = 0 then .error .ZeroDivisionError
    else .ok [("accuracy", accuracies.sum / ((examples.sum : ℤ) : ℚ))]

/-! ## Round orchestrator (spec §4.5), modelled from the spec -/

/-- One round's entry of the append-only history: the round index, the
distributed evaluation result (absent when zero evaluation results were
obtained), and the fit-phase aggregated metrics. -/
structure RoundRecord where
  roundIndex : ℕ
  evalResult : Option (ℚ × Metrics)
  fitMetrics : Metrics
  deriving DecidableEq, Repr, Inhabited

/-- The orchestrator's state: the current global ParameterSet and the
ordered, append-only history of RoundRecord entries. -/
structure ServerState where
  params : ParameterSet
  history : List RoundRecord
  deriving DecidableEq, Repr, Inhabited

/-- The run's environment: for each round number, the successful fit results
and the successful evaluate results collected at the phase barrier, plus the
optional metric-combining functions of the run configuration. -/
structure Env where
  fitResults : ℕ → List (ParameterSet × ℕ × Metrics)
  evalResults : ℕ → List (ℚ × ℕ × Metrics)
  fitCombiner : Option (List (ℕ × Metrics) → Metrics)
  evalCombiner : Option (List (ℕ × Metrics) → Metrics)

/-- Modelled from the spec: one round of the orchestrator (§4.5), missing
from `src/`.  Fit aggregation produces the new global ParameterSet (fatal
`AggregationEmpty` when every fit participant failed); the evaluate phase
yields an absent record when it produced no results; a RoundRecord is
appended and the global state replaced only on success. -/
def runRound (env : Env) (r : ℕ) (s : ServerState) : Except FLError ServerState :=
  match aggregate_fit env.fitCombiner (env.fitResults r) with
  | .error e => .error e
  | .ok (newParams, fitMs) =>
    let ev := aggregate_evaluate env.evalCombiner (env.evalResults r)
    .ok ⟨newParams, s.history ++ [⟨r, ev, fitMs⟩]⟩

/-- Modelled from the spec: the round loop starting at round `r` for `n`
more rounds.  On a fatal error the run halts, leaving the state from before
the failing round unmodified. -/
def runFrom (env : Env) : ℕ → ℕ → ServerState → ServerState × Option FLError
  | _, 0, s => (s, none)
  | r, n + 1, s =>
    match runRound env r s with
    | .error e => (s, some e)
    | .ok s' => runFrom env (r + 1) n s'

/-- Modelled from the spec: a full run of `n` rounds, numbered from 1. -/
def runRounds (env : Env) (n : ℕ) (s : ServerState) :
    ServerState × Option FLError :=
  runFrom env 1 n s

/-- Environment in which every fit participant fails in every round. -/
def allFitFailEnv : Env := ⟨fun _ => [], fun _ => [], none, none⟩

/-- Environment with one successful fit participant per round and no
evaluation results in round 1. -/
def oneClientEnv : Env :=
  ⟨fun _ => [([1], 1, [])],
   fun r => if r = 1 then [] else [(1, 1, [])],
   none, none⟩

/-! ## Helper lemmas -/

theorem weightedMean_perm {l l' : List (ℚ × ℕ)} (h : l.Perm l') :
    weightedMean l = weightedMean l' := by
  unfold weightedMean
  rw [(h.map _).sum_eq, (h.map _).sum_eq]

theorem map_snd_zip_of_length_eq {α β : Type} (ks : List α) (vs : List β)
    (h : ks.length = vs.length) : (ks.zip vs).map Prod.snd = vs := by
  induction ks generalizing vs with
  | nil => cases vs with
    | nil => rfl
    | cons v vs => simp at h
  | cons k ks ih =>
    cases vs with
    | nil => simp at h
    | cons v vs =>
      simp only [List.zip_cons_cons, List.map_cons, List.cons.injEq, true_and]
      exact ih vs (by simpa using h)

/-! ## Claim theorems -/

/-- C2: the claim says `FlowerClient.fit` returns the number of training
examples in its partition and `FlowerClient.evaluate` the number of
validation examples.  The code returns `len(self.trainloader)` /
`len(self.valloader)`, the number of BATCHES: for the tutorial's partition
of 4500 training and 500 validation examples with batch size 32, fit
returns 141 and evaluate returns 16, not 4500 and 500. -/
theorem fit_returns_batch_count_not_example_count :
    len_train = 4500 ∧ fit_sample_count = 141 ∧ fit_sample_count ≠ len_train ∧
    len_val = 500 ∧ evaluate_sample_count = 16 ∧
    evaluate_sample_count ≠ len_val := by
  decide

/-- C7: with a registry of 10 participants, `fraction_fit=1.0`,
`min_fit_clients=10`, `min_available_clients=10` selects exactly 10
participants for fitting, and `fraction_evaluate=0.5`,
`min_evaluate_clients=5` selects exactly 5 for evaluation. -/
theorem tutorial_config_selects_10_and_5 :
    select_for_fit 10 1 10 10 = .ok 10 ∧
    select_for_evaluate 10 (1 / 2) 5 10 = .ok 5 := by
  constructor
  · norm_num [select_for_fit, selectCount, roundHalfUp]
    decide
  · norm_num [select_for_evaluate, selectCount, roundHalfUp]
    decide

/-- C3 counterexample: with a registry of 2 participants,
`min_available = 1` (so the registry is large enough), `fraction = 0` and
`min_required = 5`, selection succeeds but returns only 2 participants,
fewer than `min_required` — refuting "never fewer than `min_required`". -/
theorem select_fewer_than_min_required :
    (1 : ℕ) ≤ 2 ∧ select_for_fit 2 0 5 1 = .ok 2 ∧ ¬ (5 : ℕ) ≤ 2 := by
  refine ⟨by norm_num, ?_, by norm_num⟩
  norm_num [select_for_fit, selectCount, roundHalfUp]

/-- C3 (amended): when `registry_size < min_available` both selectors raise
`InsufficientParticipants` before any dispatch; otherwise both return
exactly `max(round-half-up(fraction * registry_size), min_required)` clamped
to `registry_size` — hence never more than the registry size, and never
fewer than `min_required` whenever `min_required ≤ registry_size`. -/
theorem select_count_spec (n : ℕ) (f : ℚ) (minReq minAvail : ℕ) :
    (n < minAvail →
      select_for_fit n f minReq minAvail = .error .InsufficientParticipants ∧
      select_for_evaluate n f minReq minAvail =
        .error .InsufficientParticipants) ∧
    (minAvail ≤ n →
      select_for_fit n f minReq minAvail =
        .ok (min (max (⌊f * n + 1 / 2⌋).toNat minReq) n) ∧
      select_for_evaluate n f minReq minAvail =
        .ok (min (max (⌊f * n + 1 / 2⌋).toNat minReq) n) ∧
      min (max (⌊f * n + 1 / 2⌋).toNat minReq) n ≤ n ∧
      (minReq ≤ n → minReq ≤ min (max (⌊f * n + 1 / 2⌋).toNat minReq) n)) := by
  constructor
  · intro h
    simp [select_for_fit, select_for_evaluate, h]
  · intro h
    have hnot : ¬ n < minAvail := not_lt.mpr h
    refine ⟨?_, ?_, min_le_right _ _,
      fun hreq => le_min (le_max_right _ minReq) hreq⟩
    · simp [select_for_fit, selectCount, roundHalfUp, hnot]
    · simp [select_for_evaluate, selectCount, roundHalfUp, hnot]

/-- Witness for C3's amended theorem at registry 4, fraction 1/2,
`min_required = 1`, `min_available = 2`: both selectors return 2. -/
theorem select_count_spec_witness :
    select_for_fit 4 (1 / 2) 1 2 = .ok 2 ∧
    select_for_evaluate 4 (1 / 2) 1 2 = .ok 2 := by
  have h := (select_count_spec 4 (1 / 2) 1 2).2 (by norm_num)
  refine ⟨?_, ?_⟩
  · rw [h.1]
    norm_num
    decide
  · rw [h.2.1]
    norm_num
    decide

/-- C1: for every non-empty result list with positive sample counts (and the
run's uniform tensor layout), `aggregate_fit` yields at each tensor position
the exact sample-count-weighted mean
`sum(sample_count_r * value_r) / sum(sample_count_r)`. -/
theorem aggregate_fit_is_weighted_mean
    (results : List (ParameterSet × ℕ × Metrics)) (L : ℕ)
    (hne : results ≠ [])
    (hpos : ∀ t ∈ results, 0 < t.2.1)
    (hL : ∀ t ∈ results, t.1.length = L) :
    aggregate_fit none results =
      .ok ((List.range L).map (fun i =>
        (results.map (fun t => ((t.2.1 : ℕ) : ℚ) * t.1.getD i 0)).sum /
          (results.map (fun t => ((t.2.1 : ℕ) : ℚ))).sum), []) := by
  cases results with
  | nil => exact absurd rfl hne
  | cons r rs =>
    have hr : r.1.length = L := hL r (List.mem_cons_self _ _)
    simp [aggregate_fit, aggregateAt, weightedMean, List.map_map, hr,
      Function.comp_def]

/-- Witness for C1: two scalar results with sample counts 100 and 300 and
values 2.0 and 6.0 aggregate to `(100*2 + 300*6)/400 = 5.0`. -/
theorem aggregate_fit_is_weighted_mean_witness :
    aggregate_fit none [([2], 100, []), ([6], 300, [])] =
      .ok ((List.range 1).map (fun i =>
        ([([2], 100, []), ([6], 300, [])].map
            (fun (t : ParameterSet × ℕ × Metrics) =>
              ((t.2.1 : ℕ) : ℚ) * t.1.getD i 0)).sum /
          ([([2], 100, []), ([6], 300, [])].map
            (fun (t : ParameterSet × ℕ × Metrics) =>
              ((t.2.1 : ℕ) : ℚ))).sum), []) ∧
    aggregate_fit none [([2], 100, []), ([6], 300, [])] = .ok ([5], []) := by
  constructor
  · exact aggregate_fit_is_weighted_mean _ 1 (by simp) (by norm_num) (by simp)
  · norm_num [aggregate_fit, aggregateAt, weightedMean, List.range_succ]

/-- C6: with no metric-combining function, the aggregated metrics mapping of
the fit phase is empty, and the evaluate phase still reports the
sample-count-weighted loss alongside an empty metrics mapping. -/
theorem no_combiner_drops_metrics
    (fitRes : List (ParameterSet × ℕ × Metrics))
    (evalRes : List (ℚ × ℕ × Metrics))
    (h1 : fitRes ≠ []) (h2 : evalRes ≠ []) :
    (∃ ps, aggregate_fit none fitRes = .ok (ps, [])) ∧
    aggregate_evaluate none evalRes =
      some ((evalRes.map (fun t => ((t.2.1 : ℕ) : ℚ) * t.1)).sum /
              (evalRes.map (fun t => ((t.2.1 : ℕ) : ℚ))).sum, []) := by
  constructor
  · cases fitRes with
    | nil => exact absurd rfl h1
    | cons r rs => exact ⟨_, rfl⟩
  · cases evalRes with
    | nil => exact absurd rfl h2
    | cons r rs =>
      simp [aggregate_evaluate, weightedMean, List.map_map, Function.comp_def]

/-- Witness for C6 at one fit result and one evaluate result. -/
theorem no_combiner_drops_metrics_witness :
    (∃ ps, aggregate_fit none [([1], 2, [("a", 1)])] = .ok (ps, [])) ∧
    aggregate_evaluate none [(3, 2, [("accuracy", 1)])] =
      some (([((3 : ℚ), 2, ([("accuracy", (1 : ℚ))] : Metrics))].map
              (fun t => ((t.2.1 : ℕ) : ℚ) * t.1)).sum /
            ([((3 : ℚ), 2, ([("accuracy", (1 : ℚ))] : Metrics))].map
              (fun t => ((t.2.1 : ℕ) : ℚ))).sum, []) :=
  no_combiner_drops_metrics _ _ (by simp) (by simp)

/-- C4: when every fit participant of a round fails (zero successful fit
results), the run halts with `AggregationEmpty` and the state (global
ParameterSet and history) from before that round is returned unmodified. -/
theorem all_fit_failed_halts (env : Env) (r n : ℕ) (s : ServerState)
    (h : env.fitResults r = []) :
    runFrom env r (n + 1) s = (s, some .AggregationEmpty) := by
  simp [runFrom, runRound, aggregate_fit, h]

/-- Witness for C4: a one-round run in which every fit participant fails
returns the initial state untouched together with `AggregationEmpty`. -/
theorem all_fit_failed_halts_witness :
    runFrom allFitFailEnv 1 1 ⟨[1], []⟩ =
      (⟨[1], []⟩, some .AggregationEmpty) :=
  all_fit_failed_halts allFitFailEnv 1 0 ⟨[1], []⟩ rfl

/-- C10: `set_parameters` followed by `get_parameters` is a round trip: for
arrays matching the model's `state_dict` in length and shapes, loading then
reading back returns the same arrays in the same order. -/
theorem set_then_get_roundtrip (net : Net) (ps : List (List ℚ))
    (h : net.map (fun kv => kv.2.length) = ps.map (fun p => p.length)) :
    ∃ net', set_parameters net ps = .ok net' ∧ get_parameters net' = ps := by
  refine ⟨(net.map (fun kv => kv.1)).zip ps, ?_, ?_⟩
  · simp [set_parameters, h]
  · have hlen : net.length = ps.length := by
      have hc := congrArg List.length h
      simpa using hc
    simpa [get_parameters] using
      map_snd_zip_of_length_eq (net.map (fun kv => kv.1)) ps (by simpa using hlen)

/-- Witness for C10 at a one-tensor `state_dict`. -/
theorem set_then_get_roundtrip_witness :
    ∃ net', set_parameters [("conv1.weight", [1, 2])] [[3, 4]] = .ok net' ∧
      get_parameters net' = [[3, 4]] :=
  set_then_get_roundtrip [("conv1.weight", [1, 2])] [[3, 4]] (by simp)

theorem accuracy_mapM_loop_eq (l : List (ℤ × Metrics)) :
    ∀ acc : List ℚ,
    List.mapM.loop (fun p =>
        match p.2.lookup "accuracy" with
        | some a => Except.ok ((p.1 : ℚ) * a)
        | none => Except.error PyError.KeyError) l acc =
      if ∀ p ∈ l, (p.2.lookup "accuracy").isSome then
        Except.ok (acc.reverse ++
          l.map (fun p => (p.1 : ℚ) * ((p.2.lookup "accuracy").getD 0)))
      else Except.error PyError.KeyError := by
  induction l with
  | nil =>
    intro acc
    simp [List.mapM.loop, pure, Except.pure]
  | cons p l ih =>
    intro acc
    rw [List.mapM.loop]
    cases hp : p.2.lookup "accuracy" with
    | none =>
      have hcond : ¬ ∀ q ∈ p :: l, (q.2.lookup "accuracy").isSome := by
        intro h
        have hh := h p (List.mem_cons_self _ _)
        rw [hp] at hh
        simp at hh
      rw [if_neg hcond]
      simp only [hp, Bind.bind, Except.bind]
    | some a =>
      simp only [hp, Bind.bind, Except.bind]
      rw [ih (((p.1 : ℚ) * a) :: acc)]
      by_cases hall : ∀ q ∈ l, (q.2.lookup "accuracy").isSome
      · rw [if_pos hall,
          if_pos (List.forall_mem_cons.mpr ⟨by simp [hp], hall⟩)]
        simp [hp]
      · rw [if_neg hall,
          if_neg (fun h => hall (fun q hq => h q (List.mem_cons_of_mem _ hq)))]

theorem accuracy_mapM_eq (l : List (ℤ × Metrics)) :
    (l.mapM (fun p =>
        match p.2.lookup "accuracy" with
        | some a => Except.ok ((p.1 : ℚ) * a)
        | none => Except.error PyError.KeyError)) =
      if ∀ p ∈ l, (p.2.lookup "accuracy").isSome then
        Except.ok (l.map (fun p => (p.1 : ℚ) * ((p.2.lookup "accuracy").getD 0)))
      else Except.error PyError.KeyError := by
  have h := accuracy_mapM_loop_eq l []
  simpa [List.mapM] using h

theorem weighted_average_eq (l : List (ℤ × Metrics)) :
    weighted_average l =
      if ∀ p ∈ l, (p.2.lookup "accuracy").isSome then
        if (l.map (fun p => p.1)).sum = 0 then .error .ZeroDivisionError
        else .ok [("accuracy",
          (l.map (fun p => (p.1 : ℚ) * ((p.2.lookup "accuracy").getD 0))).sum /
            (((l.map (fun p => p.1)).sum : ℤ) : ℚ))]
      else .error .KeyError := by
  unfold weighted_average
  rw [accuracy_mapM_eq]
  by_cases hall : ∀ p ∈ l, (p.2.lookup "accuracy").isSome
  · rw [if_pos hall, if_pos hall]
  · rw [if_neg hall, if_neg hall]

/-- C9: `weighted_average` applied to an empty metrics list divides by the
zero example sum (`ZeroDivisionError`); on every non-empty input whose
entries all carry an `accuracy` key and whose example counts sum to a
positive value, it returns a mapping with exactly the single key
`accuracy`. -/
theorem weighted_average_safety (ms : List (ℤ × Metrics)) (_hne : ms ≠ [])
    (hall : ∀ p ∈ ms, (p.2.lookup "accuracy").isSome)
    (hpos : 0 < (ms.map (fun p => p.1)).sum) :
    weighted_average [] = .error .ZeroDivisionError ∧
    ∃ v : ℚ, weighted_average ms = .ok [("accuracy", v)] := by
  constructor
  · rw [weighted_average_eq]
    simp
  · rw [weighted_average_eq, if_pos hall, if_neg (by omega)]
    exact ⟨_, rfl⟩

/-- Witness for C9 at one entry with 3 examples and accuracy 0.5. -/
theorem weighted_average_safety_witness :
    weighted_average [] = .error .ZeroDivisionError ∧
    ∃ v : ℚ, weighted_average [(3, [("accuracy", 1 / 2)])] =
      .ok [("accuracy", v)] :=
  weighted_average_safety [(3, [("accuracy", 1 / 2)])] (by simp)
    (by simp [List.lookup]) (by simp)

theorem aggregateAt_perm {l l' : List (ParameterSet × ℕ)} (h : l.Perm l')
    (i : ℕ) : aggregateAt l i = aggregateAt l' i :=
  weightedMean_perm (h.map _)

theorem aggregate_fit_perm (l l' : List (ParameterSet × ℕ × Metrics)) (L : ℕ)
    (h : l.Perm l') (hL : ∀ t ∈ l, t.1.length = L) :
    aggregate_fit none l = aggregate_fit none l' := by
  cases l with
  | nil =>
    cases l' with
    | nil => rfl
    | cons r rs => exact absurd h.symm.eq_nil (by simp)
  | cons r rs =>
    cases l' with
    | nil => exact absurd h.eq_nil (by simp)
    | cons r' rs' =>
      have hr : r.1.length = L := hL r (List.mem_cons_self _ _)
      have hr' : r'.1.length = L :=
        hL r' (h.symm.subset (List.mem_cons_self _ _))
      simp only [aggregate_fit, hr, hr']
      have hpt : ∀ i ∈ List.range L,
          aggregateAt ((r :: rs).map (fun t => (t.1, t.2.1))) i =
            aggregateAt ((r' :: rs').map (fun t => (t.1, t.2.1))) i :=
        fun i _ => aggregateAt_perm (h.map _) i
      rw [List.map_congr_left hpt]

theorem aggregate_evaluate_perm (e e' : List (ℚ × ℕ × Metrics))
    (h : e.Perm e') :
    aggregate_evaluate none e = aggregate_evaluate none e' := by
  cases e with
  | nil =>
    cases e' with
    | nil => rfl
    | cons r rs => exact absurd h.symm.eq_nil (by simp)
  | cons r rs =>
    cases e' with
    | nil => exact absurd h.eq_nil (by simp)
    | cons r' rs' =>
      simp only [aggregate_evaluate, Option.some.injEq]
      exact Prod.ext (weightedMean_perm (h.map _)) rfl

theorem weighted_average_perm (m m' : List (ℤ × Metrics)) (h : m.Perm m') :
    weighted_average m = weighted_average m' := by
  rw [weighted_average_eq, weighted_average_eq]
  have hcond : (∀ p ∈ m, (p.2.lookup "accuracy").isSome) ↔
      (∀ p ∈ m', (p.2.lookup "accuracy").isSome) :=
    ⟨fun hh p hp => hh p (h.symm.subset hp),
     fun hh p hp => hh p (h.subset hp)⟩
  have hsum1 : (m.map (fun p => p.1)).sum = (m'.map (fun p => p.1)).sum :=
    (h.map _).sum_eq
  have hsum2 :
      (m.map (fun p => (p.1 : ℚ) * ((p.2.lookup "accuracy").getD 0))).sum =
        (m'.map (fun p => (p.1 : ℚ) * ((p.2.lookup "accuracy").getD 0))).sum :=
    (h.map _).sum_eq
  by_cases hc : ∀ p ∈ m, (p.2.lookup "accuracy").isSome
  · rw [if_pos hc, if_pos (hcond.mp hc), hsum1, hsum2]
  · rw [if_neg hc, if_neg (fun hc' => hc (hcond.mpr hc'))]

/-- C5: aggregation — of fit parameter sets, of evaluate losses, and of
metrics via the `weighted_average` combiner — is invariant under every
permutation of the input result list. -/
theorem aggregation_order_invariant
    (l l' : List (ParameterSet × ℕ × Metrics)) (L : ℕ)
    (e e' : List (ℚ × ℕ × Metrics)) (m m' : List (ℤ × Metrics))
    (hl : l.Perm l') (hL : ∀ t ∈ l, t.1.length = L)
    (he : e.Perm e') (hm : m.Perm m') :
    aggregate_fit none l = aggregate_fit none l' ∧
    aggregate_evaluate none e = aggregate_evaluate none e' ∧
    weighted_average m = weighted_average m' :=
  ⟨aggregate_fit_perm l l' L hl hL, aggregate_evaluate_perm e e' he,
   weighted_average_perm m m' hm⟩

/-- Witness for C5: swapping two results leaves each aggregation output
unchanged. -/
theorem aggregation_order_invariant_witness :
    aggregate_fit none [([1, 2], 1, []), ([3, 4], 2, [])] =
      aggregate_fit none [([3, 4], 2, []), ([1, 2], 1, [])] ∧
    aggregate_evaluate none [(1, 1, []), (2, 2, [])] =
      aggregate_evaluate none [(2, 2, []), (1, 1, [])] ∧
    weighted_average [(1, [("accuracy", 1)]), (2, [("accuracy", 0)])] =
      weighted_average [(2, [("accuracy", 0)]), (1, [("accuracy", 1)])] :=
  aggregation_order_invariant _ _ 2 _ _ _ _
    (List.Perm.swap _ _ _) (by simp) (List.Perm.swap _ _ _)
    (List.Perm.swap _ _ _)

theorem runFrom_ok_history (env : Env) :
    ∀ (n r : ℕ) (s : ServerState),
      (runFrom env r n s).2 = none →
      ∃ L : List RoundRecord,
        (runFrom env r n s).1.history = s.history ++ L ∧
        L.length = n ∧
        ∀ k, k < n → (L.getD k default).roundIndex = r + k ∧
          (env.evalResults (r + k) = [] →
            (L.getD k default).evalResult = none) := by
  intro n
  induction n with
  | zero =>
    intro r s h
    exact ⟨[], by simp [runFrom], rfl, fun k hk => absurd hk (by omega)⟩
  | succ n ih =>
    intro r s h
    rcases hrr : runRound env r s with e | s'
    · rw [runFrom, hrr] at h
      simp at h
    · rw [runFrom, hrr] at h ⊢
      obtain ⟨L', hh, hlen, hidx⟩ := ih (r + 1) s' h
      rcases haf : aggregate_fit env.fitCombiner (env.fitResults r)
        with e | pr
      · rw [runRound, haf] at hrr
        simp at hrr
      · rw [runRound, haf] at hrr
        simp only [Except.ok.injEq] at hrr
        refine ⟨⟨r, aggregate_evaluate env.evalCombiner (env.evalResults r),
          pr.2⟩ :: L', ?_, by simp [hlen], ?_⟩
        · rw [hh, ← hrr]
          simp
        · intro k hk
          cases k with
          | zero =>
            constructor
            · simp
            · intro hev
              rw [Nat.add_zero] at hev
              simp [aggregate_evaluate, hev]
          | succ k =>
            have hk' : k < n := by omega
            have := hidx k hk'
            constructor
            · simpa [Nat.add_assoc, Nat.add_comm, Nat.add_left_comm]
                using this.1
            · intro hev
              have hev' : env.evalResults (r + 1 + k) = [] := by
                rw [show r + 1 + k = r + (k + 1) by omega]
                exact hev
              simpa using this.2 hev'

/-- C8: a completed run of `N` rounds produces a history of exactly `N`
RoundRecord entries in round order (entry `k` describes round `k + 1`), and
a round that obtained zero evaluation results has an absent evaluation
record while the run continues. -/
theorem run_produces_round_records (env : Env) (N : ℕ) (p : ParameterSet)
    (h : (runRounds env N ⟨p, []⟩).2 = none) :
    (runRounds env N ⟨p, []⟩).1.history.length = N ∧
    ∀ k, k < N →
      ((runRounds env N ⟨p, []⟩).1.history.getD k default).roundIndex =
        k + 1 ∧
      (env.evalResults (k + 1) = [] →
        ((runRounds env N ⟨p, []⟩).1.history.getD k default).evalResult =
          none) := by
  obtain ⟨L, hh, hlen, hidx⟩ := runFrom_ok_history env N 1 ⟨p, []⟩ h
  rw [runRounds] at *
  simp only [List.nil_append] at hh
  rw [hh, hlen]
  refine ⟨rfl, fun k hk => ?_⟩
  have := hidx k hk
  rw [Nat.add_comm 1 k] at this
  exact this

/-- Witness for C8: a two-round run with one successful fit participant per
round completes with a history of exactly two records. -/
theorem run_produces_round_records_witness :
    (runRounds oneClientEnv 2 ⟨[0], []⟩).2 = none ∧
    (runRounds oneClientEnv 2 ⟨[0], []⟩).1.history.length = 2 :=
  ⟨rfl, (run_produces_round_records oneClientEnv 2 [0] rfl).1⟩

end Flower
